import Mathlib

/-
  Verification development for the remote-objects ObjectStore layer
  (src/src/ObjectStore.ts).  The definitions below are a shallow
  embedding of the TypeScript source: JavaScript values are modelled by
  an explicit heap of objects, the asynchronous methods of the
  ObjectStore class become explicit state-passing functions returning
  `Except` (a thrown JavaScript value is the `error` case), and promises
  are modelled as already-settled values (the store is single-threaded
  and every intermediate result is awaited before the next step).
-/

namespace RemoteObjects

/-- RemoteId from types.ts: ids are strings (user-exposed names) or
numbers (allocated by nextRemoteId). -/
inductive RemoteId where
  | str (s : String)
  | num (n : Int)
deriving DecidableEq, Repr

/-- String rendering of a RemoteId as produced by JS template literals
such as the unknown-id error text. -/
def ridToString : RemoteId → String
  | .str s => s
  | .num n => toString n

mutual

/-- ValueDescription from types.ts, as used by ObjectStore.ts: a wire
description of a value.  Primitive literals are inlined; `bigintD`
carries the decimal string; `symbolD` and `objD` are gc-tracked
references; `remoteD` is RemoteDataDescription (root id plus path);
`errorD` is ErrorDescription with optional message, stack and name. -/
inductive VDesc where
  | str (s : String)
  | num (n : Int)
  | bool (b : Bool)
  | bigintD (value : String)
  | undefD
  | nullD
  | symbolD (id : RemoteId)
  | objD (id : RemoteId) (isFunction : Bool) (ownKeys : List OwnKey)
      (hasKeys : List VDesc) (proto : VDesc) (fnProto : VDesc)
  | remoteD (root : RemoteId) (path : List PathSeg)
  | errorD (value : VDesc) (message : Option String) (stack : Option String)
      (name : Option String)

/-- OwnKeyDescription from types.ts: an encoded key together with its
enumerable flag. -/
inductive OwnKey where
  | mk (key : VDesc) (enumerable : Bool)

/-- PathSegment from types.ts: one step of a deferred remote path. -/
inductive PathSeg where
  | get (name : VDesc)
  | set (name : VDesc) (value : VDesc)
  | call (args : List VDesc)
  | new (args : List VDesc)

end

/-- RemoteDataDescription from types.ts: `{type: "remote", root, path}`. -/
structure RemoteData where
  root : RemoteId
  path : List PathSeg

/-- A JavaScript property key: a string or a symbol (identified by the
symbol counter that created it). -/
inductive JSKey where
  | str (s : String)
  | sym (n : Nat)
deriving DecidableEq, Repr

/-- A JavaScript value.  Objects and functions are references into the
store heap; symbols are identified by a counter.  `builtinProto` stands
for a host builtin prototype object (such as Error.prototype), which the
model treats as opaque. -/
inductive JSVal where
  | undefV
  | null
  | bool (b : Bool)
  | num (n : Int)
  | str (s : String)
  | bigintV (n : Int)
  | obj (r : Nat)
  | sym (n : Nat)
  | builtinProto (tag : String)
deriving DecidableEq, Repr

/-- Behaviour of a user-supplied local function, interpreted when the
path evaluator invokes it.  `retThis` returns the `this` receiver the
caller bound, which lets theorems observe receiver binding. -/
inductive FnBody where
  | retThis
  | retConst (v : JSVal)
  | retArg (i : Nat)
  | throwVal (v : JSVal)
deriving DecidableEq, Repr

/-- The data carried by an Error instance (message, name, and the
optional stack text). -/
structure ErrInfo where
  message : String
  name : String
  stack : Option String
deriving DecidableEq, Repr

/-- An own property of a heap object (key, value, enumerable flag). -/
structure JSProp where
  key : JSKey
  value : JSVal
  enumerable : Bool
deriving DecidableEq, Repr

/-- The reflection metadata a bound proxy closes over
(createRemoteObject): decoded own keys with enumerable flags, hasKeys,
the decoded prototype and the decoded function prototype. -/
structure BoundMeta where
  ownKeys : List (JSKey × Bool)
  hasKeys : List JSVal
  protoV : JSVal
  fnProtoV : JSVal

/-- A heap object.  `proxyData` is present exactly on remote proxies: it
models the value the proxy get trap returns for the private
symbolProxyData key.  `errorInfo` is present exactly on Error
instances.  `bound` is present on bound proxies. -/
structure JSObj where
  props : List JSProp
  proto : JSVal
  callBody : Option FnBody
  ctorBody : Option FnBody
  proxyData : Option RemoteData
  bound : Option BoundMeta
  errorInfo : Option ErrInfo

/-- A plain (non-proxy, non-function) heap object with the given
properties and prototype. -/
def mkPlainObj (props : List JSProp) (proto : JSVal) : JSObj :=
  ⟨props, proto, none, none, none, none, none⟩

/-- A plain local function with the given behaviour. -/
def mkFnObj (f : FnBody) : JSObj :=
  ⟨[], JSVal.null, some f, none, none, none, none⟩

/-- Identity key of a gc-tracked value, used for the WeakMap
localObjectsId which is keyed by object or symbol identity.  `builtin`
identifies a host builtin prototype object. -/
inductive GcRef where
  | obj (r : Nat)
  | sym (n : Nat)
  | builtin (tag : String)
deriving DecidableEq, Repr

/-- The JS value a GcRef identifies. -/
def gcRefVal : GcRef → JSVal
  | .obj r => .obj r
  | .sym n => .sym n
  | .builtin tag => .builtinProto tag

/-- The remoteObjectPrototype option. -/
inductive ProtoPolicy where
  | full
  | keysOnly
  | nonePolicy
deriving DecidableEq, Repr

/-- The remoteError option. -/
inductive ErrorPolicy where
  | newError
  | remoteObject
deriving DecidableEq, Repr

/-- The resolved ObjectStoreOptions. -/
structure Options where
  remoteObjectPrototype : ProtoPolicy
  remoteError : ErrorPolicy
  noToString : Bool
deriving DecidableEq, Repr

/-- The mutable state of one ObjectStore: the private fields of the
class, plus the JS heap, the symbol counter and the host stack text
captured when an Error is constructed (`capturedStack` models what the
engine writes into `error.stack` for a new Error). -/
structure StoreState where
  closed : Bool
  localObjects : List (RemoteId × JSVal)
  localObjectsId : List (GcRef × VDesc)
  remoteObjects : List (RemoteId × Option JSVal)
  keepStringIds : List (RemoteId × JSVal)
  objectsToClean : List RemoteId
  finalizationRegs : List (JSVal × RemoteId)
  lastRemoteId : Int
  heap : List JSObj
  symCount : Nat
  options : Options
  capturedStack : Option String

/-- A stateful computation that may throw a JavaScript value. -/
def EvalM (α : Type) : Type := StoreState → StoreState × Except JSVal α

/-- Return a value without touching the state. -/
def retE {α : Type} (a : α) : EvalM α := fun s => (s, Except.ok a)

/-- Sequence two computations; a thrown value short-circuits. -/
def bindE {α β : Type} (x : EvalM α) (f : α → EvalM β) : EvalM β := fun s =>
  match x s with
  | (s1, Except.ok a) => f a s1
  | (s1, Except.error e) => (s1, Except.error e)

/-- Run a computation and throw its result (models `throw expr` where
expr itself can throw while being evaluated). -/
def throwResult {α : Type} (x : EvalM JSVal) : EvalM α := fun s =>
  match x s with
  | (s1, Except.ok v) => (s1, Except.error v)
  | (s1, Except.error e) => (s1, Except.error e)

/-- Model of `throw new Error(msg)` (and TypeError etc., selected by
`name`): allocate a fresh Error instance on the heap and throw it.  The
stack text is the host-captured stack. -/
def throwJS {α : Type} (name msg : String) : EvalM α := fun s =>
  let eobj : JSObj :=
    ⟨[], JSVal.builtinProto name, none, none, none, none,
      some ⟨msg, name, s.capturedStack⟩⟩
  ({ s with heap := s.heap ++ [eobj] }, Except.error (JSVal.obj s.heap.length))

/-- Association-list lookup keyed by RemoteId (models Map.get). -/
def findRid {α : Type} (k : RemoteId) : List (RemoteId × α) → Option α
  | [] => none
  | (k1, v) :: rest => if k1 = k then some v else findRid k rest

/-- Association-list update keyed by RemoteId (models Map.set: replace
in place if present, append otherwise, preserving insertion order). -/
def setRid {α : Type} (k : RemoteId) (v : α) : List (RemoteId × α) → List (RemoteId × α)
  | [] => [(k, v)]
  | (k1, v1) :: rest =>
    if k1 = k then (k1, v) :: rest else (k1, v1) :: setRid k v rest

/-- Association-list removal keyed by RemoteId (models Map.delete). -/
def delRid {α : Type} (k : RemoteId) : List (RemoteId × α) → List (RemoteId × α)
  | [] => []
  | (k1, v1) :: rest =>
    if k1 = k then rest else (k1, v1) :: delRid k rest

/-- Association-list lookup keyed by object or symbol identity (models
WeakMap.get). -/
def findRef (k : GcRef) : List (GcRef × VDesc) → Option VDesc
  | [] => none
  | (k1, v) :: rest => if k1 = k then some v else findRef k rest

/-- Association-list update keyed by object or symbol identity (models
WeakMap.set). -/
def setRef (k : GcRef) (v : VDesc) : List (GcRef × VDesc) → List (GcRef × VDesc)
  | [] => [(k, v)]
  | (k1, v1) :: rest =>
    if k1 = k then (k1, v) :: rest else (k1, v1) :: setRef k v rest

/-- Own-property lookup on a property list. -/
def findProp (k : JSKey) : List JSProp → Option JSVal
  | [] => none
  | p :: rest => if p.key = k then some p.value else findProp k rest

/-- Own-property assignment: replace the value of an existing key
(keeping its enumerable flag), or append a fresh enumerable property. -/
def setOwnProp (k : JSKey) (v : JSVal) : List JSProp → List JSProp
  | [] => [⟨k, v, true⟩]
  | p :: rest =>
    if p.key = k then ⟨p.key, v, p.enumerable⟩ :: rest else p :: setOwnProp k v rest

/-- ToPropertyKey: JS coerces a computed member key to a string unless
it is a symbol.  In this protocol keys are always strings or symbols;
the remaining cases model the host toString coercion. -/
def toKey : JSVal → JSKey
  | .str s => .str s
  | .sym n => .sym n
  | .num n => .str (toString n)
  | .bool b => .str (toString b)
  | .undefV => .str "undefined"
  | .null => .str "null"
  | .bigintV n => .str (toString n)
  | .obj _ => .str "[object Object]"
  | .builtinProto _ => .str "[object Object]"

/-- Number.MAX_SAFE_INTEGER. -/
def maxSafeInteger : Int := 9007199254740991

/-- Number.MIN_SAFE_INTEGER. -/
def minSafeInteger : Int := -9007199254740991

/-- The TypeError message of appendProxyPath. -/
def cannotWriteMsg : String :=
  "Cannot write to a RemoteObject or Return Value. Only properties can be set."

/-- A thrown error at the level of the pure helper functions (name and
message of the JS error object). -/
structure Thrown where
  name : String
  message : String
deriving DecidableEq, Repr

/-- appendProxyPath from ObjectStore.ts: append a PathSegment to the
path of a RemoteDataDescription, producing a new description.  For a
set segment the immediately preceding get segment is removed and a
terminal set carrying the get key is pushed instead; a set with no
preceding get throws a TypeError.  `data.path.at(-1)` is `getLast?`,
`data.path.slice(0, -1)` is `dropLast`, and both the slice and the
array spread build fresh arrays. -/
def appendProxyPath (data : RemoteData) (segment : PathSeg) : Except Thrown RemoteData :=
  match segment with
  | .set _ value =>
    match data.path.getLast? with
    | none => Except.error ⟨"TypeError", cannotWriteMsg⟩
    | some last =>
      match last with
      | .get name =>
        Except.ok ⟨data.root, data.path.dropLast ++ [.set name value]⟩
      | _ => Except.error ⟨"TypeError", cannotWriteMsg⟩
  | seg => Except.ok ⟨data.root, data.path ++ [seg]⟩

/-- The id stored in a generated description (description.id in
cacheDescription); falls back to the allocated id, which is what the
generators always put there. -/
def descIdOf (d : VDesc) (fallback : RemoteId) : RemoteId :=
  match d with
  | .objD i _ _ _ _ _ => i
  | .symbolD i => i
  | _ => fallback

/-- The loop body of nextRemoteId: increment lastRemoteId, wrap from
MAX_SAFE_INTEGER to MIN_SAFE_INTEGER, and retry while the candidate is
present in localObjects.  The source loops unboundedly; the model
bounds the search by the table size plus one, which finds a free id
whenever the candidates are pairwise distinct (always, given the 2^53
wide id space against a finite table). -/
def nextRemoteIdGo (localObjects : List (RemoteId × JSVal)) : Nat → Int → Int
  | 0, last => last
  | n + 1, last =>
    let last1 := last + 1
    let last2 := if last1 ≥ maxSafeInteger then minSafeInteger else last1
    match findRid (.num last2) localObjects with
    | some _ => nextRemoteIdGo localObjects n last2
    | none => last2

/-- nextRemoteId from ObjectStore.ts: allocate a fresh numeric id. -/
def nextRemoteId (s : StoreState) : StoreState × RemoteId :=
  let chosen := nextRemoteIdGo s.localObjects (s.localObjects.length + 1) s.lastRemoteId
  ({ s with lastRemoteId := chosen }, .num chosen)

/-- getProxyData from ObjectStore.ts: read the private symbolProxyData
key of the value.  On a remote proxy the get trap answers that key with
the RemoteDataDescription of the proxy (an object); on every other value the
key is absent, so the read yields undefined and the function returns
undefined. -/
def getProxyData (s : StoreState) (v : JSVal) : Option RemoteData :=
  match v with
  | .obj r => (s.heap.get? r).bind (fun o => o.proxyData)
  | _ => none

/-- getAllKeys from ObjectStore.ts: the deduplicated keys of the object
and its whole prototype chain, in insertion order (a JS Set).  Fuel
bounds the chain walk; host builtin prototype objects end the walk (the
model keeps them opaque). -/
def getAllKeys (s : StoreState) : Nat → JSVal → List JSKey → List JSKey
  | 0, _, acc => acc
  | n + 1, v, acc =>
    match v with
    | .obj r =>
      match s.heap.get? r with
      | none => acc
      | some o =>
        let acc1 := o.props.foldl
          (fun a p => if a.contains p.key then a else a ++ [p.key]) acc
        getAllKeys s n o.proto acc1
    | _ => acc

/-- cacheDescription from ObjectStore.ts: return the cached description
of a gc-tracked value, or allocate an id, generate the description, and
record it in localObjectsId (keyed by value identity) and localObjects
(keyed by description.id). -/
def cacheDescription (ref : GcRef) (gen : RemoteId → StoreState → StoreState × VDesc) :
    StoreState → StoreState × VDesc := fun s =>
  match findRef ref s.localObjectsId with
  | some d => (s, d)
  | none =>
    let p1 := nextRemoteId s
    let p2 := gen p1.2 p1.1
    ({ p2.1 with
        localObjectsId := setRef ref p2.2 p2.1.localObjectsId,
        localObjects := setRid (descIdOf p2.2 p1.2) (gcRefVal ref) p2.1.localObjects }, p2.2)

mutual

/-- getValueDescription from ObjectStore.ts (fuelled worker): encode a
value as a wire description.  Primitives are inlined, bigints as
decimal strings; undefined and null map to the constant markers;
symbols are cached by identity; an object that is a remote proxy of this
store is replaced by the data its get trap reveals for the
private symbolProxyData key; any other object is cached and described.
Fuel bounds the recursion through prototype chains, which are finite in
the host; on exhaustion (never reached on host-representable heaps) the
null marker is returned. -/
def encodeValue (fuel : Nat) (v : JSVal) : StoreState → StoreState × VDesc := fun s =>
  match v with
  | .str x => (s, .str x)
  | .num x => (s, .num x)
  | .bool x => (s, .bool x)
  | .bigintV x => (s, .bigintD (toString x))
  | .undefV => (s, .undefD)
  | .sym n => cacheDescription (.sym n) (fun id s1 => (s1, VDesc.symbolD id)) s
  | .null => (s, .nullD)
  | .builtinProto tag =>
    -- a host builtin prototype object is an ordinary object to the
    -- encoder; the model keeps its own keys and prototype opaque
    cacheDescription (.builtin tag)
      (fun id s1 => (s1, VDesc.objD id false [] [] VDesc.nullD VDesc.undefD)) s
  | .obj r =>
    match getProxyData s (.obj r) with
    | some d => (s, .remoteD d.root d.path)
    | none =>
      match fuel with
      | 0 => (s, .nullD)
      | fuel' + 1 =>
        cacheDescription (.obj r) (fun id s1 => encodeObjDesc fuel' r id s1) s
termination_by (fuel, 0, 0)

/-- getObjectDescription from ObjectStore.ts (fuelled worker): describe
a local object.  ownKeys lists the string-keyed own properties with
their enumerable flags (Object.entries drops symbol keys); hasKeys is
populated only under the keysOnly prototype policy; the prototype is
described only under the full policy; functionPrototype is the encoded
own prototype property, for functions only. -/
def encodeObjDesc (fuel : Nat) (r : Nat) (id : RemoteId) : StoreState → StoreState × VDesc := fun s =>
  let o := (s.heap.get? r).getD (mkPlainObj [] JSVal.null)
  let isF := o.callBody.isSome
  let ownKeys := o.props.filterMap (fun p =>
    match p.key with
    | .str k => some (OwnKey.mk (VDesc.str k) p.enumerable)
    | .sym _ => none)
  let p1 :=
    if s.options.remoteObjectPrototype ≠ ProtoPolicy.keysOnly then (s, [])
    else encodeKeys fuel (getAllKeys s (s.heap.length + 1) (JSVal.obj r) []) s
  let p2 :=
    if s.options.remoteObjectPrototype ≠ ProtoPolicy.full then (p1.1, VDesc.nullD)
    else encodeValue fuel o.proto p1.1
  let p3 :=
    if ¬ isF then (p2.1, VDesc.undefD)
    else encodeValue fuel ((findProp (.str "prototype") o.props).getD JSVal.undefV) p2.1
  (p3.1, VDesc.objD id isF ownKeys p1.2 p2.2 p3.2)
termination_by (fuel, 2, 0)

/-- Encode a list of keys (strings inline, symbols by reference), as
getAllKeys results are encoded in getObjectDescription. -/
def encodeKeys (fuel : Nat) (ks : List JSKey) : StoreState → StoreState × List VDesc := fun s =>
  match ks with
  | [] => (s, [])
  | k :: rest =>
    let p1 :=
      match k with
      | .str x => (s, VDesc.str x)
      | .sym n => encodeValue fuel (JSVal.sym n) s
    let p2 := encodeKeys fuel rest p1.1
    (p2.1, p1.2 :: p2.2)
termination_by (fuel, 1, ks.length)

end

/-- getValueDescription entry point: the fuel covers every acyclic
prototype chain of the heap. -/
def getValueDescription (v : JSVal) : StoreState → StoreState × VDesc := fun s =>
  encodeValue (s.heap.length + 1) v s

/-- getObjectDescription entry point. -/
def getObjectDescription (r : Nat) (id : RemoteId) : StoreState → StoreState × VDesc := fun s =>
  encodeObjDesc (s.heap.length + 1) r id s

/-- Encode a list of values left to right (the argument arrays of the
proxy apply and construct traps). -/
def encodeValues : List JSVal → StoreState → StoreState × List VDesc
  | [], s => (s, [])
  | v :: rest, s =>
    let p1 := getValueDescription v s
    let p2 := encodeValues rest p1.1
    (p2.1, p1.2 :: p2.2)

/-- Allocate a heap object, returning its reference. -/
def allocObj (o : JSObj) : StoreState → StoreState × Nat := fun s =>
  ({ s with heap := s.heap ++ [o] }, s.heap.length)

/-- cleanupObject from ObjectStore.ts: string ids are never cleaned;
a numeric id is dropped from the remoteObjects cache and queued for the
next gc sync (objectsToClean is a Set, hence the dedup). -/
def cleanupObject (id : RemoteId) (s : StoreState) : StoreState :=
  match id with
  | .str _ => s
  | .num _ =>
    { s with
        remoteObjects := delRid id s.remoteObjects,
        objectsToClean :=
          if s.objectsToClean.contains id then s.objectsToClean
          else s.objectsToClean ++ [id] }

/-- cacheValue from ObjectStore.ts: return the cached proxy or symbol
for a remote id while its weak reference is still live; on a dead
reference clean up first; otherwise run the generator, cache the result
weakly, retain string ids strongly and register numeric ids with the
finalization registry. -/
def cacheValue (id : RemoteId) (gen : EvalM JSVal) : EvalM JSVal := fun s =>
  let run := fun (s0 : StoreState) =>
    match gen s0 with
    | (s1, Except.ok v) =>
      let s2 := { s1 with remoteObjects := setRid id (some v) s1.remoteObjects }
      match id with
      | .str _ => ({ s2 with keepStringIds := setRid id v s2.keepStringIds }, Except.ok v)
      | .num _ =>
        ({ s2 with finalizationRegs := s2.finalizationRegs ++ [(v, id)] }, Except.ok v)
    | (s1, Except.error e) => (s1, Except.error e)
  match findRid id s.remoteObjects with
  | some slot =>
    match slot with
    | some v => (s, Except.ok v)
    | none => run (cleanupObject id s)
  | none => run s

/-- Property lookup along the prototype chain of plain objects (an
absent property is undefined).  Fuel bounds the walk; builtin
prototypes and primitives end it. -/
def protoWalk (s : StoreState) : Nat → JSVal → JSKey → JSVal
  | 0, _, _ => .undefV
  | n + 1, v, k =>
    match v with
    | .obj r =>
      match s.heap.get? r with
      | none => .undefV
      | some o =>
        match findProp k o.props with
        | some pv => pv
        | none => protoWalk s n o.proto k
    | _ => .undefV

/-- Encode a property key the way the proxy get trap encodes the
accessed name (getValueDescription of a string or symbol). -/
def encodeKeyDesc (k : JSKey) : StoreState → StoreState × VDesc := fun s =>
  match k with
  | .str x => (s, VDesc.str x)
  | .sym n => getValueDescription (JSVal.sym n) s

/-- createRemoteProxy from ObjectStore.ts in its unbound form: a fresh
proxy carrying only the root id and path.  The get trap state the
claims observe is the proxyData field (the answer to the private
symbolProxyData key); the path-extending traps are modelled at their
call sites. -/
def createRemoteProxyUnbound (d : RemoteData) : EvalM JSVal := fun s =>
  let p := allocObj ⟨[], JSVal.null, none, none, some d, none, none⟩ s
  (p.1, Except.ok (JSVal.obj p.2))

/-- The member read `value[key]` performed by the path evaluator.
Reading from undefined or null throws; reading from a plain object
walks own properties and the prototype chain; reading from a remote
proxy runs the get trap, whose default branch returns a fresh proxy
with a get segment appended (the reserved-name branches of the trap
return host closures tied to the transport and are not reachable
through the claims; the symbolProxyData branch is modelled by
getProxyData). -/
def getProp (v : JSVal) (k : JSKey) : EvalM JSVal := fun s =>
  match v with
  | .undefV => throwJS "TypeError" "Cannot read properties of undefined" s
  | .null => throwJS "TypeError" "Cannot read properties of null" s
  | .obj r =>
    match s.heap.get? r with
    | none => (s, Except.ok JSVal.undefV)
    | some o =>
      match o.proxyData with
      | some d =>
        let p1 := encodeKeyDesc k s
        match appendProxyPath ⟨d.root, d.path⟩ (.get p1.2) with
        | Except.ok d2 => createRemoteProxyUnbound d2 p1.1
        | Except.error _ => (p1.1, Except.ok JSVal.undefV)
      | none => (s, Except.ok (protoWalk s (s.heap.length + 1) (JSVal.obj r) k))
  | _ => (s, Except.ok JSVal.undefV)

/-- The member write `value[key] = nv` performed by the path evaluator
(strict mode): writing to undefined, null or a primitive throws; the
set trap of a remote proxy returns false, which strict mode turns into
a TypeError; a plain object gets its own property updated. -/
def setProp (v : JSVal) (k : JSKey) (nv : JSVal) : EvalM Unit := fun s =>
  match v with
  | .undefV => throwJS "TypeError" "Cannot set properties of undefined" s
  | .null => throwJS "TypeError" "Cannot set properties of null" s
  | .obj r =>
    match s.heap.get? r with
    | none => (s, Except.ok ())
    | some o =>
      match o.proxyData with
      | some _ => throwJS "TypeError" "proxy set trap returned false" s
      | none =>
        ({ s with heap := s.heap.set r { o with props := setOwnProp k nv o.props } },
          Except.ok ())
  | _ => throwJS "TypeError" "Cannot create property on primitive" s

/-- Run the behaviour of a local function with the given receiver and
arguments. -/
def invokeFn (f : FnBody) (receiver : JSVal) (args : List JSVal) : EvalM JSVal := fun s =>
  match f with
  | .retThis => (s, Except.ok receiver)
  | .retConst v => (s, Except.ok v)
  | .retArg i => (s, Except.ok (args.getD i JSVal.undefV))
  | .throwVal v => (s, Except.error v)

/-- The expression `value.call(parent, ...args)` of the path evaluator:
for a plain local function this is Function.prototype.call, invoking
the function with the receiver bound to parent; for a remote proxy the
get trap yields a proxy for path plus a get of the call name and
applying it yields a proxy with a call segment appended; anything else
throws. -/
def invokeCall (v : JSVal) (receiver : JSVal) (args : List JSVal) : EvalM JSVal := fun s =>
  match v with
  | .obj r =>
    match s.heap.get? r with
    | none => throwJS "TypeError" "value.call is not a function" s
    | some o =>
      match o.proxyData with
      | some d =>
        let p1 := encodeValues args s
        match appendProxyPath ⟨d.root, d.path⟩ (.get (VDesc.str "call")) with
        | Except.ok d1 =>
          match appendProxyPath d1 (.call p1.2) with
          | Except.ok d2 => createRemoteProxyUnbound d2 p1.1
          | Except.error _ => (p1.1, Except.ok JSVal.undefV)
        | Except.error _ => (p1.1, Except.ok JSVal.undefV)
      | none =>
        match o.callBody with
        | some f => invokeFn f receiver args s
        | none => throwJS "TypeError" "value.call is not a function" s
  | _ => throwJS "TypeError" "value.call is not a function" s

/-- The expression `new value(...args)` of the path evaluator: a plain
local constructor runs its body; the construct trap of a remote proxy
returns a proxy with a new segment appended; anything else throws. -/
def constructNew (v : JSVal) (args : List JSVal) : EvalM JSVal := fun s =>
  match v with
  | .obj r =>
    match s.heap.get? r with
    | none => throwJS "TypeError" "value is not a constructor" s
    | some o =>
      match o.proxyData with
      | some d =>
        let p1 := encodeValues args s
        match appendProxyPath ⟨d.root, d.path⟩ (.new p1.2) with
        | Except.ok d2 => createRemoteProxyUnbound d2 p1.1
        | Except.error _ => (p1.1, Except.ok JSVal.undefV)
      | none =>
        match o.ctorBody with
        | some f => invokeFn f JSVal.undefV args s
        | none => throwJS "TypeError" "value is not a constructor" s
  | _ => throwJS "TypeError" "value is not a constructor" s

/-- Object.getPrototypeOf as used by createError: objects yield their
prototype slot, undefined and null throw, other primitives coerce to
their builtin wrapper prototype. -/
def getProtoOfVal (v : JSVal) : EvalM JSVal := fun s =>
  match v with
  | .obj r => (s, Except.ok (((s.heap.get? r).map (fun o => o.proto)).getD JSVal.null))
  | .null => throwJS "TypeError" "Cannot convert undefined or null to object" s
  | .undefV => throwJS "TypeError" "Cannot convert undefined or null to object" s
  | .str _ => (s, Except.ok (JSVal.builtinProto "String"))
  | .num _ => (s, Except.ok (JSVal.builtinProto "Number"))
  | .bool _ => (s, Except.ok (JSVal.builtinProto "Boolean"))
  | .bigintV _ => (s, Except.ok (JSVal.builtinProto "BigInt"))
  | .sym _ => (s, Except.ok (JSVal.builtinProto "Symbol"))
  | .builtinProto _ => (s, Except.ok JSVal.null)

/-- The name of the error createError builds: the name field of the description,
or the name a fresh Error carries. -/
def createErrorName (name : Option String) : String :=
  match name with
  | some nm => nm
  | none => "Error"

/-- The local stack of the error createError builds after the name
rewrite: when a name is present and the captured stack starts with the
name Error of the fresh error, that prefix is replaced by the new name. -/
def createErrorStack1 (cap : Option String) (name : Option String) : Option String :=
  match name with
  | some nm =>
    match cap with
    | some st0 =>
      if st0.startsWith "Error" then some (nm ++ st0.drop ("Error".length))
      else some st0
    | none => none
  | none => cap

/-- The final stack of the error createError builds: the remote stack,
when present, is appended after the Remote Stacktrace line (standing
alone when there is no local stack). -/
def createErrorStack2 (cap : Option String) (name stack : Option String) : Option String :=
  match stack with
  | some rs =>
    some (match createErrorStack1 cap name with
      | none => "Remote Stacktrace:\n" ++ rs
      | some loc => loc ++ "\n\nRemote Stacktrace:\n" ++ rs)
  | none => createErrorStack1 cap name

/-- createError from ObjectStore.ts: with no message, stack and name
the decoded cause itself is returned; otherwise a new local Error is
built carrying the message, the cause as its cause property, the name
(with the leading "Error" of the local stack rewritten to it), the
remote stack appended after the "Remote Stacktrace:" line, and finally
its prototype replaced by the prototype of the cause.  The in-place
mutations of the fresh error collapse into building the final object;
only the prototype replacement stays separate because the prototype
lookup of the cause can throw after the error was allocated.  The
Symbol.toStringTag closure the source also attaches is host
stringification support and is not modelled. -/
def createError (message stack name : Option String) (cause : JSVal) : EvalM JSVal := fun s =>
  if message.isNone && stack.isNone && name.isNone then (s, Except.ok cause)
  else
    let msg := message.getD ""
    let name1 := createErrorName name
    let stack2 := createErrorStack2 s.capturedStack name stack
    let p := allocObj ⟨[⟨.str "cause", cause, false⟩], JSVal.builtinProto "Error",
        none, none, none, none, some ⟨msg, name1, stack2⟩⟩ s
    match getProtoOfVal cause p.1 with
    | (s2, Except.ok protoV) =>
      ({ s2 with heap := s2.heap.set p.2 ⟨[⟨.str "cause", cause, false⟩], protoV,
          none, none, none, none, some ⟨msg, name1, stack2⟩⟩ }, Except.ok (JSVal.obj p.2))
    | (s2, Except.error e) => (s2, Except.error e)

/-- checkClosed from ObjectStore.ts. -/
def checkClosed : EvalM Unit := fun s =>
  if s.closed then throwJS "Error" "Connection is already closed." s
  else (s, Except.ok ())

/-- An outbound transport message sent through the RequestHandler. -/
inductive OutMsg where
  | closeReq
  | remoteReq (root : RemoteId) (path : List PathSeg)

/-- The RequestHandlerInterface the store was constructed with:
`request` is the transport oracle (its answer or thrown value), and the
flags record which optional members the interface implements. -/
structure RHIface where
  request : OutMsg → Except JSVal VDesc
  hasNewMessageHandler : Bool
  hasDisconnectedHandler : Bool

/-- Externally visible effects of close. -/
inductive CloseAction where
  | sentCloseRequest
  | calledDisconnected
deriving DecidableEq, Repr

/-- close from ObjectStore.ts: a no-op when already closed; otherwise
set the closed flag, fire the close notification at the transport
(rejections swallowed) and call the disconnected handler when the
interface has one. -/
def close (rh : RHIface) (s : StoreState) : StoreState × List CloseAction :=
  if s.closed then (s, [])
  else
    ({ s with closed := true },
      CloseAction.sentCloseRequest ::
        (if rh.hasDisconnectedHandler then [CloseAction.calledDisconnected] else []))

/-- newMessage from ObjectStore.ts: deliver the payload to the
newMessageHandler of the request handler, throwing when the interface
does not implement one.  There is no closed-state check in the
source. -/
def newMessage (rh : RHIface) : EvalM Unit := fun s =>
  if rh.hasNewMessageHandler then (s, Except.ok ())
  else throwJS "Error" "Function is not Implemented by requestHandler" s

/-- exposeRemoteObject from ObjectStore.ts: after the closed check,
throw when the name is already bound in localObjects; otherwise build
the description under the string id and record it in both local
tables.  There is no check against the value being already exposed
under another name. -/
def exposeRemoteObject (id : String) (r : Nat) : EvalM Unit :=
  bindE checkClosed fun _ => fun s =>
    match findRid (.str id) s.localObjects with
    | some _ =>
      throwJS "Error" ("Remote Object with id " ++ id ++ " is already exposed.") s
    | none =>
      let p := getObjectDescription r (.str id) s
      ({ p.1 with
          localObjectsId := setRef (.obj r) p.2 p.1.localObjectsId,
          localObjects := setRid (descIdOf p.2 (.str id)) (JSVal.obj r) p.1.localObjects },
        Except.ok ())

/-- getRemoteObject from ObjectStore.ts: after the closed check, return
a fresh unbound proxy for the name without any transport round
trip. -/
def getRemoteObject (id : String) : EvalM JSVal :=
  bindE checkClosed fun _ => createRemoteProxyUnbound ⟨.str id, []⟩

/-- The generator cacheValue runs for a symbol description: a fresh
local symbol. -/
def genSym : EvalM JSVal := fun s =>
  ({ s with symCount := s.symCount + 1 }, Except.ok (JSVal.sym s.symCount))

mutual

/-- Structural size of a description, used as the termination measure
of the decoder. -/
def vdSize : VDesc → Nat
  | .remoteD _ path => 2 + segListSize path
  | .objD _ _ ok hk p fp => 2 + okListSize ok + vdListSize hk + vdSize p + vdSize fp
  | .errorD v _ _ _ => 1 + vdSize v
  | _ => 1

/-- Structural size of an own-key description. -/
def okSize : OwnKey → Nat
  | .mk k _ => 1 + vdSize k

/-- Structural size of a path segment. -/
def segSize : PathSeg → Nat
  | .get n => 1 + vdSize n
  | .set n v => 1 + vdSize n + vdSize v
  | .call args => 1 + vdListSize args
  | .new args => 1 + vdListSize args

/-- Structural size of a description list. -/
def vdListSize : List VDesc → Nat
  | [] => 0
  | d :: rest => 1 + vdSize d + vdListSize rest

/-- Structural size of an own-key list. -/
def okListSize : List OwnKey → Nat
  | [] => 0
  | k :: rest => 1 + okSize k + okListSize rest

/-- Structural size of a path. -/
def segListSize : List PathSeg → Nat
  | [] => 0
  | seg :: rest => 1 + segSize seg + segListSize rest

end

mutual

/-- createValue from ObjectStore.ts: decode a wire description into a
local value.  Primitives decode inline (BigInt parses the decimal
string; the protocol only ever carries toString output, so the parse
fallback is unreachable); symbol and object descriptions resolve
through cacheValue, constructing a fresh symbol or a bound remote
proxy on a miss; a remote description is resolved by the path
evaluator; an error description throws, either the decoded remote
value itself (remoteError = remoteObject) or the result of
createError. -/
def createValue (d : VDesc) : EvalM JSVal :=
  match d with
  | .str v => retE (JSVal.str v)
  | .num v => retE (JSVal.num v)
  | .bool v => retE (JSVal.bool v)
  | .bigintD v => retE (JSVal.bigintV ((v.toInt?).getD 0))
  | .undefD => retE JSVal.undefV
  | .nullD => retE JSVal.null
  | .symbolD id => cacheValue id genSym
  | .remoteD root path => resolveRemoteValue root path
  | .objD id isF ownKeys hasKeys protoD fnProtoD =>
    cacheValue id (createRemoteObject id isF ownKeys hasKeys protoD fnProtoD)
  | .errorD v m st n => fun s =>
    if s.options.remoteError = ErrorPolicy.remoteObject then
      (bindE (createValue v) fun c => fun s1 => (s1, Except.error c)) s
    else
      (bindE (createValue v) fun c => throwResult (createError m st n c)) s
termination_by vdSize d
decreasing_by all_goals ((try simp only [vdSize, okSize, segSize, vdListSize, okListSize, segListSize]); omega)

/-- Decode a list of descriptions left to right (the argument lists of
call and new segments; Promise.all over the mapped decodes). -/
def createValues (ds : List VDesc) : EvalM (List JSVal) :=
  match ds with
  | [] => retE []
  | d :: rest =>
    bindE (createValue d) fun v =>
    bindE (createValues rest) fun vs =>
    retE (v :: vs)
termination_by vdListSize ds
decreasing_by all_goals ((try simp only [vdSize, okSize, segSize, vdListSize, okListSize, segListSize]); omega)

/-- createOwnKeysMap from ObjectStore.ts: decode each own-key
description into a property key with its descriptor flags. -/
def createOwnKeys (ks : List OwnKey) : EvalM (List (JSKey × Bool)) :=
  match ks with
  | [] => retE []
  | OwnKey.mk kd en :: rest =>
    bindE (createValue kd) fun kv =>
    bindE (createOwnKeys rest) fun restL =>
    retE ((toKey kv, en) :: restL)
termination_by okListSize ks
decreasing_by all_goals ((try simp only [vdSize, okSize, segSize, vdListSize, okListSize, segListSize]); omega)

/-- createRemoteObject from ObjectStore.ts: build a bound proxy for an
object or function description by decoding its reflection metadata and
allocating a proxy whose data is the root id with an empty path. -/
def createRemoteObject (id : RemoteId) (isF : Bool) (ownKeys : List OwnKey)
    (hasKeys : List VDesc) (protoD fnProtoD : VDesc) : EvalM JSVal :=
  bindE (createOwnKeys ownKeys) fun okL =>
  bindE (createValues hasKeys) fun hkL =>
  bindE (createValue protoD) fun protoV =>
  bindE (createValue fnProtoD) fun fnProtoV => fun s =>
    let p := allocObj ⟨[], JSVal.null, none, none, some ⟨id, []⟩,
        some ⟨okL, hkL, protoV, fnProtoV⟩, none⟩ s
    (p.1, Except.ok (JSVal.obj p.2))
termination_by 1 + okListSize ownKeys + vdListSize hasKeys + vdSize protoD + vdSize fnProtoD
decreasing_by all_goals ((try simp only [vdSize, okSize, segSize, vdListSize, okListSize, segListSize]); omega)

/-- resolveRemoteValue from ObjectStore.ts: look up the root in
localObjects (an unknown id throws), then walk the path segments from
the root, returning the value the walk ends with. -/
def resolveRemoteValue (root : RemoteId) (path : List PathSeg) : EvalM JSVal := fun s =>
  match findRid root s.localObjects with
  | none =>
    throwJS "Error" ("Object with id " ++ ridToString root ++ " is unknown.") s
  | some rootVal => resolveSegments JSVal.undefV rootVal path s
termination_by 1 + segListSize path
decreasing_by all_goals ((try simp only [vdSize, okSize, segSize, vdListSize, okListSize, segListSize]); omega)

/-- The segment loop of resolveRemoteValue: thread the parent and value
variables through the segments and return the final value variable. -/
def resolveSegments (parent value : JSVal) (path : List PathSeg) : EvalM JSVal :=
  match path with
  | [] => retE value
  | seg :: rest =>
    bindE (segStep parent value seg) fun pv =>
    resolveSegments pv.1 pv.2 rest
termination_by segListSize path
decreasing_by all_goals ((try simp only [vdSize, okSize, segSize, vdListSize, okListSize, segListSize]); omega)

/-- One iteration of the resolveRemoteValue loop, updating (parent,
value): a get remembers the read object as parent and reads the
property; a set decodes key and value, assigns, and clears both; a
call decodes the arguments, invokes value with parent as receiver, and
clears parent afterwards; a new decodes the arguments, clears parent,
and constructs. -/
def segStep (parent value : JSVal) (seg : PathSeg) : EvalM (JSVal × JSVal) :=
  match seg with
  | .get nameD =>
    bindE (createValue nameD) fun kv =>
    bindE (getProp value (toKey kv)) fun v2 =>
    retE (value, v2)
  | .set nameD valD =>
    bindE (createValue nameD) fun kv =>
    bindE (createValue valD) fun nv =>
    bindE (setProp value (toKey kv) nv) fun _ =>
    retE (JSVal.undefV, JSVal.undefV)
  | .call argDs =>
    bindE (createValues argDs) fun avs =>
    bindE (invokeCall value parent avs) fun v2 =>
    retE (JSVal.undefV, v2)
  | .new argDs =>
    bindE (createValues argDs) fun avs =>
    bindE (constructNew value avs) fun v2 =>
    retE (JSVal.undefV, v2)
termination_by segSize seg
decreasing_by all_goals ((try simp only [vdSize, okSize, segSize, vdListSize, okListSize, segListSize]); omega)

end

/-- describePromiseResult from ObjectStore.ts: run the promise and
encode its value; a rejection is caught and encoded as an error
description carrying the description of the thrown value, together with the
message, stack and name fields when the thrown value is an Error
instance (a JS Error always has a message and a name string; the stack
is optional).  This function itself never throws. -/
def describePromiseResult (act : EvalM JSVal) : StoreState → StoreState × VDesc := fun s =>
  match act s with
  | (s1, Except.ok v) => getValueDescription v s1
  | (s1, Except.error e) =>
    match e with
    | JSVal.obj r =>
      match (s1.heap.get? r).bind (fun o => o.errorInfo) with
      | some info =>
        let p := getValueDescription e s1
        (p.1, VDesc.errorD p.2 (some info.message) info.stack (some info.name))
      | none =>
        let p := getValueDescription e s1
        (p.1, VDesc.errorD p.2 none none none)
    | _ =>
      let p := getValueDescription e s1
      (p.1, VDesc.errorD p.2 none none none)

/-- The shapes of an inbound transport payload that requestHandler
discriminates: a non-object, an object without a type field, the close
notification, a remote request, or an object with an unknown type. -/
inductive Inbound where
  | notObject
  | objNoType
  | closeMsg
  | remoteMsg (root : RemoteId) (path : List PathSeg)
  | unknownType

/-- A requestHandler response: the empty string answered to a close
notification, or a value description. -/
inductive RHResp where
  | emptyStr
  | desc (d : VDesc)

/-- requestHandler from ObjectStore.ts: after the closed check, a
malformed payload throws; a close notification closes the store and
answers the empty string; a remote request is resolved by the path
evaluator and its outcome, success or failure, is encoded by
describePromiseResult. -/
def requestHandler (rh : RHIface) (req : Inbound) : EvalM RHResp :=
  bindE checkClosed fun _ =>
  match req with
  | .notObject =>
    throwJS "Error"
      "request is not a message from Remote ObjectStore because it is not a object."
  | .objNoType =>
    throwJS "Error"
      "request is not a message from Remote ObjectStore because it has no type field."
  | .closeMsg => fun s =>
    let p := close rh s
    (p.1, Except.ok RHResp.emptyStr)
  | .remoteMsg root path => fun s =>
    let p := describePromiseResult (resolveRemoteValue root path) s
    (p.1, Except.ok (RHResp.desc p.2))
  | .unknownType =>
    throwJS "Error"
      "request is not a message from Remote ObjectStore because it has a unknown value in the type field."

/-- requestRemoteObject from ObjectStore.ts: after the closed check,
answer from keepStringIds when the name was resolved before; otherwise
send the remote request for the name with an empty path and decode the
transport answer. -/
def requestRemoteObject (rh : RHIface) (id : String) : EvalM JSVal :=
  bindE checkClosed fun _ => fun s =>
  match findRid (.str id) s.keepStringIds with
  | some ro => (s, Except.ok ro)
  | none =>
    match rh.request (.remoteReq (.str id) []) with
    | Except.error e => (s, Except.error e)
    | Except.ok d => createValue d s

/-
  Array-identity model of appendProxyPath.  The value-level
  appendProxyPath above captures what path a new description carries;
  the model below additionally tracks JS array identity, to express
  that the slice and the array spread in the source build fresh arrays
  and that the push mutates only the fresh copy, never the path array
  of the proxy being extended.
-/

/-- A heap of path-segment arrays; the index of an array is its JS
identity. -/
structure ArrStore where
  arrs : List (List PathSeg)

/-- A RemoteDataDescription whose path field is a reference to an array
in the ArrStore. -/
structure ProxyRef where
  root : RemoteId
  pathRef : Nat

/-- Read an array by reference. -/
def arrGet (h : ArrStore) (r : Nat) : List PathSeg :=
  (h.arrs.get? r).getD []

/-- Allocate a fresh array, returning its reference. -/
def arrAlloc (h : ArrStore) (l : List PathSeg) : ArrStore × Nat :=
  (⟨h.arrs ++ [l]⟩, h.arrs.length)

/-- In-place push onto the array behind a reference. -/
def arrPush (h : ArrStore) (r : Nat) (x : PathSeg) : ArrStore :=
  ⟨h.arrs.set r (arrGet h r ++ [x])⟩

/-- appendProxyPath at the array-identity level: for a set segment,
after the checks on the last element, `slice(0, -1)` allocates a copy
without the last element and `push` mutates only that copy; for every
other segment the array spread allocates the extended copy.  The
failing checks happen before any allocation. -/
def appendProxyPathArr (h : ArrStore) (d : ProxyRef) (segment : PathSeg) :
    Except Thrown (ArrStore × ProxyRef) :=
  match segment with
  | .set _ value =>
    match (arrGet h d.pathRef).getLast? with
    | none => Except.error ⟨"TypeError", cannotWriteMsg⟩
    | some last =>
      match last with
      | .get name =>
        let p := arrAlloc h ((arrGet h d.pathRef).dropLast)
        let h2 := arrPush p.1 p.2 (.set name value)
        Except.ok (h2, ⟨d.root, p.2⟩)
      | _ => Except.error ⟨"TypeError", cannotWriteMsg⟩
  | seg =>
    let p := arrAlloc h (arrGet h d.pathRef ++ [seg])
    Except.ok (p.1, ⟨d.root, p.2⟩)

/-- Apply a sequence of proxy extensions (property reads, calls,
constructions, set-method invocations), each extending whichever proxy
its step names; a throwing extension leaves the store unchanged. -/
def extendMany (h : ArrStore) : List (ProxyRef × PathSeg) → ArrStore
  | [] => h
  | (d, seg) :: rest =>
    match appendProxyPathArr h d seg with
    | Except.ok (h1, _) => extendMany h1 rest
    | Except.error _ => extendMany h rest

/-
  Shared infrastructure for the theorems.
-/

/-- The closed-store message. -/
def closedMsg : String := "Connection is already closed."

/-- A computation result is a thrown Error instance carrying the given
message. -/
def ThrowsMsg {α : Type} (res : StoreState × Except JSVal α) (msg : String) : Prop :=
  ∃ s1 r o, res = (s1, Except.error (JSVal.obj r)) ∧ s1.heap.get? r = some o ∧
    ∃ info, o.errorInfo = some info ∧ info.message = msg

theorem throwJS_throwsMsg {α : Type} (name msg : String) (s : StoreState) :
    ThrowsMsg (throwJS (α := α) name msg s) msg := by
  refine ⟨{ s with heap := s.heap ++
      [⟨[], JSVal.builtinProto name, none, none, none, none,
        some ⟨msg, name, s.capturedStack⟩⟩] },
    s.heap.length,
    ⟨[], JSVal.builtinProto name, none, none, none, none,
      some ⟨msg, name, s.capturedStack⟩⟩,
    rfl, ?_, ⟨msg, name, s.capturedStack⟩, rfl, rfl⟩
  exact List.get?_concat_length _ _

theorem throwJS_closed {α : Type} (name msg : String) (s : StoreState) :
    ((throwJS (α := α) name msg s).1).closed = s.closed := rfl

theorem bindE_assoc {α β γ : Type} (x : EvalM α) (f : α → EvalM β) (g : β → EvalM γ) :
    bindE (bindE x f) g = bindE x (fun a => bindE (f a) g) := by
  funext s
  simp only [bindE]
  rcases x s with ⟨s1, r⟩
  cases r <;> simp

theorem bindE_retE {α β : Type} (a : α) (f : α → EvalM β) :
    bindE (retE a) f = f a := by
  funext s
  simp [bindE, retE]

theorem bindE_ok_elim {α β : Type} (x : EvalM α) (f : α → EvalM β) (s s1 : StoreState)
    (b : β) (h : bindE x f s = (s1, Except.ok b)) :
    ∃ sa a, x s = (sa, Except.ok a) ∧ f a sa = (s1, Except.ok b) := by
  simp only [bindE] at h
  rcases hx : x s with ⟨sa, ra⟩
  cases ra with
  | ok a =>
    rw [hx] at h
    exact ⟨sa, a, rfl, h⟩
  | error e =>
    rw [hx] at h
    simp at h

/-
  C4 and C10: appendProxyPath.
-/

/-- C4: appending a set segment to a path whose last segment is a get
removes that get and pushes a single terminal set segment carrying the
get key and the set value, leaving all earlier segments unchanged;
appending a set to an empty path, or to a path whose last segment is
not a get, throws a TypeError with the protocol message. -/
theorem c4_set_collapses_trailing_get (data : RemoteData) (nameD valD : VDesc) :
    (data.path = [] →
      appendProxyPath data (.set nameD valD) =
        Except.error ⟨"TypeError", cannotWriteMsg⟩)
    ∧ (∀ init k, data.path = init ++ [.get k] →
      appendProxyPath data (.set nameD valD) =
        Except.ok ⟨data.root, init ++ [.set k valD]⟩)
    ∧ (∀ init last, data.path = init ++ [last] → (∀ k, last ≠ .get k) →
      appendProxyPath data (.set nameD valD) =
        Except.error ⟨"TypeError", cannotWriteMsg⟩) := by
  refine ⟨?_, ?_, ?_⟩
  · intro h
    simp [appendProxyPath, h]
  · intro init k h
    simp [appendProxyPath, h, List.getLast?_concat, List.dropLast_concat]
  · intro init last h hne
    cases last with
    | get k => exact absurd rfl (hne k)
    | set a b => simp [appendProxyPath, h, List.getLast?_concat]
    | call a => simp [appendProxyPath, h, List.getLast?_concat]
    | new a => simp [appendProxyPath, h, List.getLast?_concat]

/-- Witness for C4 at a concrete path ending in a get. -/
theorem c4_set_collapses_trailing_get_witness :
    appendProxyPath ⟨RemoteId.str "api", [PathSeg.get (VDesc.str "x")]⟩
        (PathSeg.set (VDesc.str "set") (VDesc.num 5)) =
      Except.ok ⟨RemoteId.str "api", [PathSeg.set (VDesc.str "x") (VDesc.num 5)]⟩ :=
  (c4_set_collapses_trailing_get _ _ _).2.1 [] _ rfl

theorem appendProxyPathArr_frame (h : ArrStore) (d : ProxyRef) (seg : PathSeg)
    (h2 : ArrStore) (d2 : ProxyRef)
    (heq : appendProxyPathArr h d seg = Except.ok (h2, d2)) :
    d2.root = d.root ∧
    ∀ r, r < h.arrs.length → h2.arrs.get? r = h.arrs.get? r := by
  cases seg with
  | set nm v =>
    simp only [appendProxyPathArr] at heq
    rcases hl : (arrGet h d.pathRef).getLast? with _ | last
    · rw [hl] at heq; simp at heq
    · rw [hl] at heq
      cases last with
      | get name =>
        simp only [arrAlloc, arrPush] at heq
        cases heq
        refine ⟨rfl, fun r hr => ?_⟩
        have hne : h.arrs.length ≠ r := by omega
        rw [List.get?_set_ne _ _ hne, List.get?_append hr]
      | set a b => simp at heq
      | call a => simp at heq
      | new a => simp at heq
  | get nm =>
    simp only [appendProxyPathArr, arrAlloc] at heq
    cases heq
    exact ⟨rfl, fun r hr => List.get?_append hr⟩
  | call a =>
    simp only [appendProxyPathArr, arrAlloc] at heq
    cases heq
    exact ⟨rfl, fun r hr => List.get?_append hr⟩
  | new a =>
    simp only [appendProxyPathArr, arrAlloc] at heq
    cases heq
    exact ⟨rfl, fun r hr => List.get?_append hr⟩

theorem appendProxyPathArr_grows (h : ArrStore) (d : ProxyRef) (seg : PathSeg)
    (h2 : ArrStore) (d2 : ProxyRef)
    (heq : appendProxyPathArr h d seg = Except.ok (h2, d2)) :
    h.arrs.length ≤ h2.arrs.length := by
  cases seg with
  | set nm v =>
    simp only [appendProxyPathArr] at heq
    rcases hl : (arrGet h d.pathRef).getLast? with _ | last
    · rw [hl] at heq; simp at heq
    · rw [hl] at heq
      cases last with
      | get name =>
        simp only [arrAlloc, arrPush] at heq
        cases heq
        simp [arrPush]
      | set a b => simp at heq
      | call a => simp at heq
      | new a => simp at heq
  | get nm =>
    simp only [appendProxyPathArr, arrAlloc] at heq
    cases heq
    simp
  | call a =>
    simp only [appendProxyPathArr, arrAlloc] at heq
    cases heq
    simp
  | new a =>
    simp only [appendProxyPathArr, arrAlloc] at heq
    cases heq
    simp

/-- C10: extending a proxy never mutates the description it was derived
from.  A single extension returns a description sharing the root but
referencing a freshly copied segment array, and every array that
existed before the extension reads back unchanged; consequently, after
any sequence of extensions (each deriving from whatever proxy it
names), the path array of every pre-existing proxy is exactly as before. -/
theorem c10_extensions_preserve_base (h : ArrStore) :
    (∀ d seg h2 d2, appendProxyPathArr h d seg = Except.ok (h2, d2) →
      d2.root = d.root ∧ ∀ r, r < h.arrs.length → h2.arrs.get? r = h.arrs.get? r)
    ∧ (∀ steps r, r < h.arrs.length →
      (extendMany h steps).arrs.get? r = h.arrs.get? r) := by
  refine ⟨fun d seg h2 d2 heq => appendProxyPathArr_frame h d seg h2 d2 heq, ?_⟩
  intro steps
  induction steps generalizing h with
  | nil => intro r hr; rfl
  | cons step rest ih =>
    intro r hr
    rcases step with ⟨d, seg⟩
    simp only [extendMany]
    rcases happ : appendProxyPathArr h d seg with e | ⟨h1, d1⟩
    · exact ih h r hr
    · have hfr := appendProxyPathArr_frame h d seg h1 d1 happ
      have hgr := appendProxyPathArr_grows h d seg h1 d1 happ
      have hr1 : r < h1.arrs.length := by omega
      rw [ih h1 r hr1, hfr.2 r hr]

/-- Witness for C10 on a concrete store holding one proxy path. -/
theorem c10_extensions_preserve_base_witness :
    0 < (ArrStore.mk [[PathSeg.get (VDesc.str "x")]]).arrs.length ∧
    (extendMany (ArrStore.mk [[PathSeg.get (VDesc.str "x")]])
        [(⟨RemoteId.str "api", 0⟩, PathSeg.call []),
         (⟨RemoteId.str "api", 1⟩, PathSeg.new [])]).arrs.get? 0 =
      (ArrStore.mk [[PathSeg.get (VDesc.str "x")]]).arrs.get? 0 :=
  ⟨by decide,
    (c10_extensions_preserve_base (ArrStore.mk [[PathSeg.get (VDesc.str "x")]])).2
      [(⟨RemoteId.str "api", 0⟩, PathSeg.call []),
       (⟨RemoteId.str "api", 1⟩, PathSeg.new [])] 0 (by decide)⟩

/-
  C2: Remote Table identity.
-/

/-- C2: whenever the Remote Table (remoteObjects) holds a live entry
for an id, decoding a gc-tracked reference to that id returns exactly
the cached instance, with the store unchanged and the generator never
run, for any generator; in particular decoding an object or function
description and decoding a symbol description with that id return the
cached instance.  Hence all decode calls performed while an instance
stays referenced return the identical instance. -/
theorem c2_live_entry_returns_cached (s : StoreState) (id : RemoteId) (v : JSVal)
    (hlive : findRid id s.remoteObjects = some (some v)) :
    (∀ gen : EvalM JSVal, cacheValue id gen s = (s, Except.ok v))
    ∧ (∀ isF ownKeys hasKeys protoD fnProtoD,
        createValue (VDesc.objD id isF ownKeys hasKeys protoD fnProtoD) s =
          (s, Except.ok v))
    ∧ createValue (VDesc.symbolD id) s = (s, Except.ok v) := by
  have hc : ∀ gen : EvalM JSVal, cacheValue id gen s = (s, Except.ok v) := by
    intro gen
    simp [cacheValue, hlive]
  refine ⟨hc, ?_, ?_⟩
  · intro isF ownKeys hasKeys protoD fnProtoD
    rw [createValue]
    exact hc _
  · rw [createValue]
    exact hc _

/-- Concrete store for the C2 witness: a live Remote Table entry for
id 5. -/
def c2State : StoreState :=
  ⟨false, [], [], [(.num 5, some (JSVal.obj 0))], [], [], [], 0,
    [mkPlainObj [] JSVal.null], 0, ⟨.full, .newError, false⟩, none⟩

/-- Witness for C2: the live entry is returned as is. -/
theorem c2_live_entry_returns_cached_witness :
    findRid (.num 5) c2State.remoteObjects = some (some (JSVal.obj 0))
    ∧ cacheValue (.num 5) genSym c2State = (c2State, Except.ok (JSVal.obj 0))
    ∧ createValue (VDesc.symbolD (.num 5)) c2State = (c2State, Except.ok (JSVal.obj 0)) :=
  ⟨rfl, (c2_live_entry_returns_cached c2State (.num 5) (JSVal.obj 0) rfl).1 genSym,
    (c2_live_entry_returns_cached c2State (.num 5) (JSVal.obj 0) rfl).2.2⟩

/-
  C6: encoding a proxy yields its path description.
-/

/-- C6: encoding a value that is one of the remote proxies of this store
(its heap entry carries proxyData, the answer to the private
symbolProxyData key) yields exactly the underlying path description,
with the store unchanged: the proxy is not registered as a new local
object.  On the owning peer, resolving that description with its empty
path returns the original table entry itself, without any further
decoding. -/
theorem c6_proxy_encodes_to_underlying_path (s : StoreState) (r : Nat) (o : JSObj)
    (d : RemoteData) (hheap : s.heap.get? r = some o) (hproxy : o.proxyData = some d) :
    getValueDescription (JSVal.obj r) s = (s, VDesc.remoteD d.root d.path)
    ∧ (∀ (t : StoreState) (v : JSVal), findRid d.root t.localObjects = some v →
        resolveRemoteValue d.root [] t = (t, Except.ok v)) := by
  constructor
  · have hh2 : s.heap[r]? = some o := by
      simpa [List.get?_eq_getElem?] using hheap
    simp [getValueDescription, encodeValue, getProxyData, hh2, hproxy]
  · intro t v hv
    rw [resolveRemoteValue]
    simp [hv, resolveSegments, retE]

/-- Concrete holder store for the C6 witness: one proxy for the remote
root named api. -/
def c6Holder : StoreState :=
  ⟨false, [], [], [], [], [], [], 0,
    [⟨[], JSVal.null, none, none, some ⟨.str "api", []⟩, none, none⟩], 0,
    ⟨.full, .newError, false⟩, none⟩

/-- Concrete owner store for the C6 witness: api names the number 42. -/
def c6Owner : StoreState :=
  ⟨false, [(.str "api", JSVal.num 42)], [], [], [], [], [], 0, [], 0,
    ⟨.full, .newError, false⟩, none⟩

/-- Witness for C6. -/
theorem c6_proxy_encodes_to_underlying_path_witness :
    getValueDescription (JSVal.obj 0) c6Holder = (c6Holder, VDesc.remoteD (.str "api") [])
    ∧ resolveRemoteValue (.str "api") [] c6Owner = (c6Owner, Except.ok (JSVal.num 42)) :=
  ⟨(c6_proxy_encodes_to_underlying_path c6Holder 0 _ ⟨.str "api", []⟩ rfl rfl).1,
    (c6_proxy_encodes_to_underlying_path c6Holder 0 _ ⟨.str "api", []⟩ rfl rfl).2
      c6Owner (JSVal.num 42) rfl⟩

/-
  C8: closed-store gating (amended: newMessage is not gated).
-/

/-- C8 (amended): on a closed store, exposeRemoteObject,
requestRemoteObject, getRemoteObject and requestHandler all throw the
closed-store message; close is a no-op on a closed store; close always
leaves the store closed and no public operation ever resets the closed
flag, so the store never returns to the open state.  newMessage is not
gated by the closed flag (see the counterexample). -/
theorem c8_closed_store_gating (s : StoreState) (rh : RHIface) (hclosed : s.closed = true) :
    (∀ id r, ThrowsMsg (exposeRemoteObject id r s) closedMsg
      ∧ ((exposeRemoteObject id r s).1).closed = true)
    ∧ (∀ id, ThrowsMsg (requestRemoteObject rh id s) closedMsg
      ∧ ((requestRemoteObject rh id s).1).closed = true)
    ∧ (∀ id, ThrowsMsg (getRemoteObject id s) closedMsg
      ∧ ((getRemoteObject id s).1).closed = true)
    ∧ (∀ req, ThrowsMsg (requestHandler rh req s) closedMsg
      ∧ ((requestHandler rh req s).1).closed = true)
    ∧ close rh s = (s, [])
    ∧ (∀ s0 : StoreState, ((close rh s0).1).closed = true)
    ∧ (∀ s0 : StoreState, ((newMessage rh s0).1).closed = s0.closed) := by
  have hgate : ∀ {β : Type} (k : Unit → EvalM β),
      bindE checkClosed k s = throwJS "Error" closedMsg s := by
    intro β k
    simp [bindE, checkClosed, hclosed, closedMsg, throwJS]
  have hthrow : ∀ {β : Type} (k : Unit → EvalM β),
      ThrowsMsg (bindE checkClosed k s) closedMsg ∧
        ((bindE checkClosed k s).1).closed = true := by
    intro β k
    rw [hgate]
    exact ⟨throwJS_throwsMsg _ _ _, by rw [throwJS_closed]; exact hclosed⟩
  refine ⟨fun id r => ?_, fun id => ?_, fun id => ?_, fun req => ?_, ?_, ?_, ?_⟩
  · exact hthrow _
  · exact hthrow _
  · exact hthrow _
  · exact hthrow _
  · simp [close, hclosed]
  · intro s0
    by_cases h : s0.closed <;> simp [close, h]
  · intro s0
    by_cases h : rh.hasNewMessageHandler <;> simp [newMessage, h, throwJS]

/-- Concrete closed store for C8. -/
def c8ClosedState : StoreState :=
  ⟨true, [], [], [], [], [], [], 0, [], 0, ⟨.full, .newError, false⟩, none⟩

/-- Concrete request handler interface for C8, implementing every
optional member. -/
def c8RH : RHIface := ⟨fun _ => Except.ok VDesc.undefD, true, true⟩

/-- Witness for C8 (amended). -/
theorem c8_closed_store_gating_witness :
    c8ClosedState.closed = true
    ∧ ThrowsMsg (exposeRemoteObject "a" 0 c8ClosedState) closedMsg
    ∧ close c8RH c8ClosedState = (c8ClosedState, []) :=
  ⟨rfl, ((c8_closed_store_gating c8ClosedState c8RH rfl).1 "a" 0).1,
    (c8_closed_store_gating c8ClosedState c8RH rfl).2.2.2.2.1⟩

/-- Counterexample for C8 as stated: on a closed store whose request
handler implements newMessageHandler, newMessage succeeds; it does not
throw, let alone with the closed-store message. -/
theorem c8_newMessage_not_gated_counterexample :
    c8ClosedState.closed = true
    ∧ newMessage c8RH c8ClosedState = (c8ClosedState, Except.ok ())
    ∧ ¬ ThrowsMsg (newMessage c8RH c8ClosedState) closedMsg := by
  refine ⟨rfl, rfl, ?_⟩
  intro ⟨s1, r, o, heq, _⟩
  have : (c8ClosedState, Except.ok ()) = (s1, Except.error (JSVal.obj r)) := heq
  simp at this

/-
  C3: exposure uniqueness (code bug: the value direction is missing).
-/

/-- The heap for C3: one plain object with no properties and a null
prototype. -/
def c3Heap : List JSObj := [mkPlainObj [] JSVal.null]

/-- The description under which the object was first exposed. -/
def c3Desc0 : VDesc := VDesc.objD (.str "test") false [] [] VDesc.nullD VDesc.undefD

/-- Store in which heap object 0 is already exposed as "test". -/
def c3State : StoreState :=
  ⟨false, [(.str "test", JSVal.obj 0)], [(GcRef.obj 0, c3Desc0)], [], [], [], [], 0,
    c3Heap, 0, ⟨.full, .newError, false⟩, none⟩

/-- The store after exposing the same object again as "test2": both
names now bind the object and the reverse map was rebound. -/
def c3After : StoreState :=
  { c3State with
      localObjectsId :=
        [(GcRef.obj 0, VDesc.objD (.str "test2") false [] [] VDesc.nullD VDesc.undefD)],
      localObjects := [(.str "test", JSVal.obj 0), (.str "test2", JSVal.obj 0)] }

/-- C3 (code bug): exposeRemoteObject enforces only the name direction
of exposure uniqueness.  Re-exposing the name "test" throws and leaves
both local tables unchanged, but re-exposing the same object under the
fresh name "test2" succeeds and rebinds it, where the own test suite of
the repository expects the throw "Remote Object is already exposed as
test.". -/
theorem c3_value_direction_not_enforced :
    exposeRemoteObject "test2" 0 c3State = (c3After, Except.ok ())
    ∧ ThrowsMsg (exposeRemoteObject "test" 0 c3State)
        "Remote Object with id test is already exposed."
    ∧ ((exposeRemoteObject "test" 0 c3State).1).localObjects = c3State.localObjects
    ∧ ((exposeRemoteObject "test" 0 c3State).1).localObjectsId = c3State.localObjectsId := by
  have hname : exposeRemoteObject "test" 0 c3State =
      throwJS "Error" "Remote Object with id test is already exposed." c3State := by
    simp [exposeRemoteObject, bindE, checkClosed, c3State, findRid]
  refine ⟨?_, ?_, ?_, ?_⟩
  · simp [exposeRemoteObject, bindE, checkClosed, c3State, c3After, c3Heap, c3Desc0,
      findRid, setRid, setRef, findRef, descIdOf, getObjectDescription, encodeObjDesc,
      encodeValue, encodeKeys, getAllKeys, getProxyData, mkPlainObj, findProp, retE]
  · rw [hname]
    exact throwJS_throwsMsg _ _ _
  · rw [hname]
    rfl
  · rw [hname]
    rfl

/-
  C1: the path evaluator returns the terminal value of the traversal.
-/

/-- Auxiliary traversal for stating C1: the (parent, value) pair after
walking a segment list, threading exactly the per-segment step of the
evaluator loop. -/
def resolveSegPairs (parent value : JSVal) : List PathSeg → EvalM (JSVal × JSVal)
  | [] => retE (parent, value)
  | seg :: rest =>
    bindE (segStep parent value seg) fun pv =>
    resolveSegPairs pv.1 pv.2 rest

theorem resolveSegments_concat (path : List PathSeg) (seg : PathSeg) :
    ∀ parent value, resolveSegments parent value (path ++ [seg]) =
      (bindE (resolveSegPairs parent value path) fun pv =>
        bindE (segStep pv.1 pv.2 seg) fun pv2 => retE pv2.2) := by
  induction path with
  | nil =>
    intro parent value
    simp [resolveSegments, resolveSegPairs, bindE_retE]
  | cons s0 rest ih =>
    intro parent value
    simp only [List.cons_append]
    rw [resolveSegments]
    simp only [resolveSegPairs, ih, bindE_assoc]

/-- C1: for an inbound remote request whose root id is known, the path
evaluator walks the segments in order and returns the value produced by
the last segment: evaluating root with path ++ [seg] equals running the
traversal over path to a (parent, value) pair and returning exactly the
value output of the final segment step.  The value output of a set
step is undefined, and an empty path returns the root (there the
traversal terminal value is the root itself). -/
theorem c1_evaluator_returns_terminal (s : StoreState) (root : RemoteId)
    (rootVal : JSVal) (path : List PathSeg) (seg : PathSeg)
    (hroot : findRid root s.localObjects = some rootVal) :
    (resolveRemoteValue root (path ++ [seg]) s =
      (bindE (resolveSegPairs JSVal.undefV rootVal path) fun pv =>
        bindE (segStep pv.1 pv.2 seg) fun pv2 => retE pv2.2) s)
    ∧ (∀ (nameD valD : VDesc) (p v : JSVal) (s0 s1 : StoreState) (pv : JSVal × JSVal),
        segStep p v (PathSeg.set nameD valD) s0 = (s1, Except.ok pv) →
        pv.2 = JSVal.undefV)
    ∧ resolveRemoteValue root [] s = (s, Except.ok rootVal) := by
  refine ⟨?_, ?_, ?_⟩
  · rw [resolveRemoteValue]
    simp only [hroot]
    rw [resolveSegments_concat]
  · intro nameD valD p v s0 s1 pv h
    simp only [segStep] at h
    obtain ⟨sa, a, ha, h⟩ := bindE_ok_elim _ _ _ _ _ h
    obtain ⟨sb, b, hb, h⟩ := bindE_ok_elim _ _ _ _ _ h
    obtain ⟨sc, c, hc, h⟩ := bindE_ok_elim _ _ _ _ _ h
    simp only [retE] at h
    cases h
    rfl
  · rw [resolveRemoteValue]
    simp [hroot, resolveSegments, retE]

/-- Concrete owner store for the C1 witness: api names heap object 0,
which has an own property x holding 42. -/
def c1State : StoreState :=
  ⟨false, [(.str "api", JSVal.obj 0)], [], [], [], [], [], 0,
    [mkPlainObj [⟨.str "x", JSVal.num 42, true⟩] JSVal.null], 0,
    ⟨.full, .newError, false⟩, none⟩

/-- Witness for C1: reading x of api returns 42, the value of the last
segment, not the root object. -/
theorem c1_evaluator_returns_terminal_witness :
    findRid (.str "api") c1State.localObjects = some (JSVal.obj 0)
    ∧ (resolveRemoteValue (.str "api") ([] ++ [PathSeg.get (VDesc.str "x")]) c1State =
        (bindE (resolveSegPairs JSVal.undefV (JSVal.obj 0) []) fun pv =>
          bindE (segStep pv.1 pv.2 (PathSeg.get (VDesc.str "x"))) fun pv2 =>
            retE pv2.2) c1State)
    ∧ resolveRemoteValue (.str "api") [PathSeg.get (VDesc.str "x")] c1State =
        (c1State, Except.ok (JSVal.num 42))
    ∧ JSVal.num 42 ≠ JSVal.obj 0 :=
  ⟨rfl,
    (c1_evaluator_returns_terminal c1State (.str "api") (JSVal.obj 0) []
      (PathSeg.get (VDesc.str "x")) rfl).1,
    by
      rw [resolveRemoteValue]
      simp [c1State, findRid, resolveSegments, segStep, createValue, bindE, retE,
        getProp, protoWalk, toKey, findProp, mkPlainObj],
    by simp⟩

/-
  C5: receiver binding of call segments.
-/

/-- C5: when the evaluator executes a call segment, the function is
invoked with the retained parent as its receiver: after a get segment
read a retThis function out of object a, the call returns a itself, and
the walk continues with the parent cleared; when the prior segment is
not a get (at the start of a path, or right after another call) the
receiver is undefined. -/
theorem c5_call_receiver_binding (s : StoreState) :
    (∀ (parent : JSVal) (rest : List PathSeg) (a : Nat) (oa : JSObj) (b : Nat)
        (ob : JSObj) (k : String),
      s.heap.get? a = some oa → oa.proxyData = none →
      findProp (.str k) oa.props = some (JSVal.obj b) →
      s.heap.get? b = some ob → ob.proxyData = none →
      ob.callBody = some FnBody.retThis →
      resolveSegments parent (JSVal.obj a)
          (PathSeg.get (VDesc.str k) :: PathSeg.call [] :: rest) s =
        resolveSegments JSVal.undefV (JSVal.obj a) rest s)
    ∧ (∀ (root : RemoteId) (b : Nat) (ob : JSObj),
      findRid root s.localObjects = some (JSVal.obj b) →
      s.heap.get? b = some ob → ob.proxyData = none →
      ob.callBody = some FnBody.retThis →
      resolveRemoteValue root [PathSeg.call []] s = (s, Except.ok JSVal.undefV))
    ∧ (∀ (root : RemoteId) (c : Nat) (oc : JSObj) (b : Nat) (ob : JSObj),
      findRid root s.localObjects = some (JSVal.obj c) →
      s.heap.get? c = some oc → oc.proxyData = none →
      oc.callBody = some (FnBody.retConst (JSVal.obj b)) →
      s.heap.get? b = some ob → ob.proxyData = none →
      ob.callBody = some FnBody.retThis →
      resolveRemoteValue root [PathSeg.call [], PathSeg.call []] s =
        (s, Except.ok JSVal.undefV)) := by
  refine ⟨?_, ?_, ?_⟩
  · intro parent rest a oa b ob k ha hpa hf hb hpb hcb
    have ha2 : s.heap[a]? = some oa := by simpa [List.get?_eq_getElem?] using ha
    have hb2 : s.heap[b]? = some ob := by simpa [List.get?_eq_getElem?] using hb
    simp [resolveSegments, segStep, createValue, createValues, bindE, retE, getProp,
      protoWalk, toKey, invokeCall, invokeFn, ha2, hpa, hf, hb2, hpb, hcb]
  · intro root b ob hroot hb hpb hcb
    have hb2 : s.heap[b]? = some ob := by simpa [List.get?_eq_getElem?] using hb
    rw [resolveRemoteValue]
    simp only [hroot]
    simp [resolveSegments, segStep, createValues, bindE, retE, invokeCall, hb2, hpb,
      hcb, invokeFn]
  · intro root c oc b ob hroot hc hpc hcc hb hpb hcb
    have hb2 : s.heap[b]? = some ob := by simpa [List.get?_eq_getElem?] using hb
    have hc2 : s.heap[c]? = some oc := by simpa [List.get?_eq_getElem?] using hc
    rw [resolveRemoteValue]
    simp only [hroot]
    simp [resolveSegments, segStep, createValues, bindE, retE, invokeCall, hb2, hpb,
      hcb, hc2, hpc, hcc, invokeFn]

/-- Concrete owner store for the C5 witness: api names object 0 whose
property m holds the retThis function at object 1. -/
def c5State : StoreState :=
  ⟨false, [(.str "api", JSVal.obj 0)], [], [], [], [], [], 0,
    [mkPlainObj [⟨.str "m", JSVal.obj 1, true⟩] JSVal.null, mkFnObj FnBody.retThis],
    0, ⟨.full, .newError, false⟩, none⟩

/-- Concrete owner store for the second part of the C5 witness: fn
names a retThis function directly. -/
def c5FnState : StoreState :=
  ⟨false, [(.str "fn", JSVal.obj 0)], [], [], [], [], [], 0,
    [mkFnObj FnBody.retThis], 0, ⟨.full, .newError, false⟩, none⟩

/-- Witness for C5: calling api.m returns api itself (the receiver was
the parent), and calling a root retThis function yields undefined (no
receiver without a preceding get). -/
theorem c5_call_receiver_binding_witness :
    (resolveSegments JSVal.undefV (JSVal.obj 0)
        (PathSeg.get (VDesc.str "m") :: PathSeg.call [] :: []) c5State =
      resolveSegments JSVal.undefV (JSVal.obj 0) [] c5State)
    ∧ resolveSegments JSVal.undefV (JSVal.obj 0) [] c5State =
        (c5State, Except.ok (JSVal.obj 0))
    ∧ resolveRemoteValue (.str "fn") [PathSeg.call []] c5FnState =
        (c5FnState, Except.ok JSVal.undefV) :=
  ⟨(c5_call_receiver_binding c5State).1 JSVal.undefV [] 0 _ 1 _ "m" rfl rfl rfl rfl
      rfl rfl,
    by rw [resolveSegments]; rfl,
    (c5_call_receiver_binding c5FnState).2.1 (.str "fn") 0 _ rfl rfl rfl rfl⟩

/-
  C7: unknown root ids are answered as error descriptions; only
  malformed payloads make requestHandler itself throw.
-/

theorem bindE_checkClosed_open {β : Type} (k : Unit → EvalM β) (s : StoreState)
    (hopen : s.closed = false) : bindE checkClosed k s = k () s := by
  simp [bindE, checkClosed, hopen]

theorem requestHandler_remote_open (rh : RHIface) (root : RemoteId)
    (path : List PathSeg) (s : StoreState) (hopen : s.closed = false) :
    requestHandler rh (.remoteMsg root path) s =
      ((describePromiseResult (resolveRemoteValue root path) s).1,
        Except.ok (RHResp.desc (describePromiseResult (resolveRemoteValue root path) s).2)) := by
  rw [requestHandler, bindE_checkClosed_open _ _ hopen]

theorem describePromiseResult_of_error (act : EvalM JSVal) (s s1 : StoreState)
    (r : Nat) (o : JSObj) (info : ErrInfo)
    (hact : act s = (s1, Except.error (JSVal.obj r)))
    (hheap : s1.heap.get? r = some o) (hinfo : o.errorInfo = some info) :
    describePromiseResult act s =
      ((getValueDescription (JSVal.obj r) s1).1,
        VDesc.errorD (getValueDescription (JSVal.obj r) s1).2
          (some info.message) info.stack (some info.name)) := by
  have hh2 : s1.heap[r]? = some o := by
    simpa [List.get?_eq_getElem?] using hheap
  simp only [describePromiseResult, hact]
  simp [hheap, hh2, hinfo]

/-- C7: an inbound remote request never makes requestHandler of an open
store reject: for every root and path the answer is an ok value
description.  When the root id is unknown, the answer is an error
description carrying the description of the thrown Error together with
its message (the unknown-id text), stack and name; decoding any error
description on the requester rethrows.  Malformed payloads (a
non-object, a missing type field, an unknown type value) make
requestHandler itself throw. -/
theorem c7_unknown_root_answered_as_error (s : StoreState) (rh : RHIface)
    (hopen : s.closed = false) :
    (∀ root path, ∃ s2 d, requestHandler rh (.remoteMsg root path) s =
      (s2, Except.ok (RHResp.desc d)))
    ∧ (∀ root path, findRid root s.localObjects = none →
      ∃ s2 vd, requestHandler rh (.remoteMsg root path) s =
        (s2, Except.ok (RHResp.desc (VDesc.errorD vd
          (some ("Object with id " ++ ridToString root ++ " is unknown."))
          s.capturedStack (some "Error")))))
    ∧ (∀ (t t1 : StoreState) (v : VDesc) (m st n : Option String) (c : JSVal),
      createValue v t = (t1, Except.ok c) →
      ∃ t2 e, createValue (VDesc.errorD v m st n) t = (t2, Except.error e))
    ∧ ThrowsMsg (requestHandler rh .notObject s)
        "request is not a message from Remote ObjectStore because it is not a object."
    ∧ ThrowsMsg (requestHandler rh .objNoType s)
        "request is not a message from Remote ObjectStore because it has no type field."
    ∧ ThrowsMsg (requestHandler rh .unknownType s)
        "request is not a message from Remote ObjectStore because it has a unknown value in the type field." := by
  refine ⟨?_, ?_, ?_, ?_, ?_, ?_⟩
  · intro root path
    exact ⟨_, _, requestHandler_remote_open rh root path s hopen⟩
  · intro root path hroot
    have hres : resolveRemoteValue root path s =
        ({ s with heap := s.heap ++
            [⟨[], JSVal.builtinProto "Error", none, none, none, none,
              some ⟨"Object with id " ++ ridToString root ++ " is unknown.",
                "Error", s.capturedStack⟩⟩] },
          Except.error (JSVal.obj s.heap.length)) := by
      rw [resolveRemoteValue]
      simp [hroot, throwJS]
    have hdp := describePromiseResult_of_error (resolveRemoteValue root path) s _
      s.heap.length _
      ⟨"Object with id " ++ ridToString root ++ " is unknown.", "Error", s.capturedStack⟩
      hres (List.get?_concat_length _ _) rfl
    exact ⟨_, _, by rw [requestHandler_remote_open rh root path s hopen, hdp]⟩
  · intro t t1 v m st n c hdec
    by_cases hpol : t.options.remoteError = ErrorPolicy.remoteObject
    · refine ⟨t1, c, ?_⟩
      rw [createValue]
      simp [hpol, bindE, hdec]
    · rcases hce : createError m st n c t1 with ⟨t2, r2⟩
      cases r2 with
      | ok e =>
        refine ⟨t2, e, ?_⟩
        rw [createValue]
        simp [hpol, bindE, hdec, throwResult, hce]
      | error e =>
        refine ⟨t2, e, ?_⟩
        rw [createValue]
        simp [hpol, bindE, hdec, throwResult, hce]
  · rw [requestHandler, bindE_checkClosed_open _ _ hopen]
    exact throwJS_throwsMsg _ _ _
  · rw [requestHandler, bindE_checkClosed_open _ _ hopen]
    exact throwJS_throwsMsg _ _ _
  · rw [requestHandler, bindE_checkClosed_open _ _ hopen]
    exact throwJS_throwsMsg _ _ _

/-- Concrete owner store for the C7 witness. -/
def c7State : StoreState :=
  ⟨false, [(.str "api", JSVal.num 42)], [], [], [], [], [], 0, [], 0,
    ⟨.full, .newError, false⟩, none⟩

/-- Concrete request handler interface for the C7 witness. -/
def c7RH : RHIface := ⟨fun _ => Except.ok VDesc.undefD, true, true⟩

/-- Witness for C7: asking for the unexposed name nope is answered with
an ok error description carrying the unknown-id message. -/
theorem c7_unknown_root_answered_as_error_witness :
    c7State.closed = false
    ∧ findRid (.str "nope") c7State.localObjects = none
    ∧ (∃ s2 vd, requestHandler c7RH (.remoteMsg (.str "nope") []) c7State =
        (s2, Except.ok (RHResp.desc (VDesc.errorD vd
          (some ("Object with id " ++ ridToString (.str "nope") ++ " is unknown."))
          c7State.capturedStack (some "Error"))))) :=
  ⟨rfl, rfl,
    (c7_unknown_root_answered_as_error c7State c7RH rfl).2.1 (.str "nope") [] rfl⟩

/-
  C9: the default remoteError policy.
-/

theorem set_append_length {α : Type} (l : List α) (a b : α) :
    (l ++ [a]).set l.length b = l ++ [b] := by
  induction l with
  | nil => rfl
  | cons x xs ih => simp [List.set, ih]

theorem createErrorStack2_append (cap n : Option String) (rs : String) :
    ∃ pre, createErrorStack2 cap n (some rs) =
      some (pre ++ "Remote Stacktrace:\n" ++ rs) := by
  rcases h1 : createErrorStack1 cap n with _ | loc
  · exact ⟨"", by simp [createErrorStack2, h1]⟩
  · exact ⟨loc ++ "\n\n", by simp [createErrorStack2, h1, String.append_assoc]⟩

/-- C9: under the default remoteError policy, decoding an error
description whose message, stack and name are all absent throws the
decoded remote value (the cause) itself, not a new Error.  When at
least one of the three is present, a freshly allocated local Error is
thrown: its reference was not in the heap before, it carries the cause
as its cause property, its prototype is the prototype of the cause, and
whenever a remote stack is present the stack of the thrown error has it
appended after the Remote Stacktrace line. -/
theorem c9_default_error_policy (t : StoreState) (v : VDesc) (m st n : Option String)
    (t1 : StoreState) (c : JSVal)
    (hpol : t.options.remoteError = ErrorPolicy.newError)
    (hdec : createValue v t = (t1, Except.ok c)) :
    ((m = none ∧ st = none ∧ n = none) →
      createValue (VDesc.errorD v m st n) t = (t1, Except.error c))
    ∧ (∀ (cr : Nat) (co : JSObj), c = JSVal.obj cr → t1.heap.get? cr = some co →
      ¬ (m = none ∧ st = none ∧ n = none) →
      ∃ eo : JSObj,
        createValue (VDesc.errorD v m st n) t =
          ({ t1 with heap := t1.heap ++ [eo] }, Except.error (JSVal.obj t1.heap.length))
        ∧ t1.heap.get? t1.heap.length = none
        ∧ findProp (.str "cause") eo.props = some c
        ∧ eo.proto = co.proto
        ∧ ∃ info, eo.errorInfo = some info ∧ info.message = m.getD ""
          ∧ ∀ rs, st = some rs →
              ∃ pre, info.stack = some (pre ++ "Remote Stacktrace:\n" ++ rs)) := by
  have hnotRO : ¬ t.options.remoteError = ErrorPolicy.remoteObject := by
    rw [hpol]
    intro h
    cases h
  constructor
  · rintro ⟨hm, hst, hn⟩
    subst hm
    subst hst
    subst hn
    rw [createValue]
    simp [hnotRO, bindE, hdec, createError, throwResult]
  · intro cr co hc hco hnall
    subst hc
    have hb : (m.isNone && st.isNone && n.isNone) = false := by
      cases m <;> cases st <;> cases n <;> simp_all
    have hlt : cr < t1.heap.length := by
      rcases List.get?_eq_some.mp hco with ⟨hl, _⟩
      exact hl
    refine ⟨⟨[⟨.str "cause", JSVal.obj cr, false⟩], co.proto, none, none, none, none,
      some ⟨m.getD "", createErrorName n, createErrorStack2 t1.capturedStack n st⟩⟩,
      ?_, ?_, ?_, rfl, ?_⟩
    · have happ : (t1.heap ++
          [(⟨[⟨.str "cause", JSVal.obj cr, false⟩], JSVal.builtinProto "Error",
            none, none, none, none,
            some ⟨m.getD "", createErrorName n,
              createErrorStack2 t1.capturedStack n st⟩⟩ : JSObj)]).get? cr = some co := by
        rw [List.get?_append hlt]
        exact hco
      have happ2 : (t1.heap ++
          [(⟨[⟨.str "cause", JSVal.obj cr, false⟩], JSVal.builtinProto "Error",
            none, none, none, none,
            some ⟨m.getD "", createErrorName n,
              createErrorStack2 t1.capturedStack n st⟩⟩ : JSObj)])[cr]? = some co := by
        simpa [List.get?_eq_getElem?] using happ
      rw [createValue]
      simp only [hnotRO, if_false, ite_false, bindE, hdec]
      simp [throwResult, createError, hb, allocObj, getProtoOfVal, happ, happ2,
        set_append_length]
    · exact List.get?_eq_none.mpr (Nat.le_refl _)
    · simp [findProp]
    · exact ⟨_, rfl, rfl, fun rs hrs => by
        subst hrs
        exact createErrorStack2_append t1.capturedStack n rs⟩

/-- Concrete holder store for the C9 witness: a live Remote Table entry
for id 7 pointing at the cached proxy object 0. -/
def c9State : StoreState :=
  ⟨false, [], [], [(.num 7, some (JSVal.obj 0))], [], [], [], 0,
    [mkPlainObj [] JSVal.null], 0, ⟨.full, .newError, false⟩, none⟩

/-- The error-value description used in the C9 witness: the remote
error is the gc-tracked object with id 7, already cached locally. -/
def c9V : VDesc := VDesc.objD (.num 7) false [] [] VDesc.nullD VDesc.undefD

/-- Witness for C9: with no message, stack and name the decoded cause
itself is thrown; with a message present a fresh local error is
thrown. -/
theorem c9_default_error_policy_witness :
    createValue (VDesc.errorD c9V none none none) c9State =
      (c9State, Except.error (JSVal.obj 0))
    ∧ (∃ eo : JSObj,
        createValue (VDesc.errorD c9V (some "boom") (some "remote stack") none) c9State =
          ({ c9State with heap := c9State.heap ++ [eo] },
            Except.error (JSVal.obj c9State.heap.length))
        ∧ findProp (.str "cause") eo.props = some (JSVal.obj 0)
        ∧ eo.proto = JSVal.null) := by
  have hdec : createValue c9V c9State = (c9State, Except.ok (JSVal.obj 0)) := by
    rw [c9V, createValue]
    simp [cacheValue, c9State, findRid]
  constructor
  · exact (c9_default_error_policy c9State c9V none none none c9State (JSVal.obj 0)
      rfl hdec).1 ⟨rfl, rfl, rfl⟩
  · obtain ⟨eo, heq, _, hcause, hproto, _⟩ :=
      (c9_default_error_policy c9State c9V (some "boom") (some "remote stack") none
        c9State (JSVal.obj 0) rfl hdec).2 0 (mkPlainObj [] JSVal.null)
        rfl rfl (by simp)
    exact ⟨eo, heq, hcause, hproto⟩

end RemoteObjects
